import Mathlib

/-!
Verification of the tag-driven SQL encoder and the grants operations of the
snowflake SDK.  The definitions are shallow embeddings of the Go source: the
modifier set, the clause model, the struct-to-clause encoder (parseStruct,
parseField, parseFieldStruct, parseFieldSlice), the statement assembler
(sqlBuilder.sql, structToSQL), and the grants option values and row converter
from grants.go.
-/

namespace SnowflakeSdk

/-! ## Characters and Go string primitives

The Go string primitives the source uses (strings.Split, strings.Join,
strings.Contains, strings.Trim, strings.TrimLeft, strings.TrimSpace,
strings.ToLower, strings.ReplaceAll) are embedded as structurally recursive
functions on the character list of a string, so that every definition
evaluates by kernel reduction.  Quote characters are written by code point to
keep the text plain.
-/

def dquoteChar : Char := Char.ofNat 34

def squoteChar : Char := Char.ofNat 39

def backslashChar : Char := Char.ofNat 92

def dquote : String := String.singleton dquoteChar

def squote : String := String.singleton squoteChar

/-- The two-character escape the single-quote style produces: backslash, quote. -/
def backslashQuote : String := ⟨[backslashChar, squoteChar]⟩

/-- strings.Join. -/
def goJoin (sep : String) : List String → String
  | [] => ""
  | [s] => s
  | s :: rest => s ++ sep ++ goJoin sep rest

/-- Helper of goSplitChar: accumulate the current segment (reversed). -/
def splitCharAux (c : Char) : List Char → List Char → List String
  | [], acc => [⟨acc.reverse⟩]
  | x :: xs, acc =>
    if x = c then ⟨acc.reverse⟩ :: splitCharAux c xs []
    else splitCharAux c xs (x :: acc)

/-- strings.Split, for the single-character separators this code uses. -/
def goSplitChar (s : String) (c : Char) : List String := splitCharAux c s.data []

/-- Whether the first list is an initial segment of the second. -/
def charsStartWith : List Char → List Char → Bool
  | [], _ => true
  | _ :: _, [] => false
  | p :: ps, c :: cs => p = c && charsStartWith ps cs

/-- Whether the first list occurs inside the second. -/
def charsContains (pat : List Char) : List Char → Bool
  | [] => charsStartWith pat []
  | c :: cs => charsStartWith pat (c :: cs) || charsContains pat cs

/-- strings.Contains. -/
def goContains (s pat : String) : Bool := charsContains pat.data s.data

/-- strings.TrimLeft with a cutset. -/
def goTrimLeft (s cutset : String) : String :=
  ⟨s.data.dropWhile (fun c => cutset.data.contains c)⟩

/-- strings.Trim with a cutset: drop cutset characters from both ends. -/
def goTrim (s cutset : String) : String :=
  ⟨((s.data.dropWhile (fun c => cutset.data.contains c)).reverse.dropWhile
      (fun c => cutset.data.contains c)).reverse⟩

/-- strings.TrimSpace. -/
def goTrimSpace (s : String) : String :=
  ⟨((s.data.dropWhile Char.isWhitespace).reverse.dropWhile Char.isWhitespace).reverse⟩

/-- strings.ToLower (ASCII, which is all the tag text uses). -/
def goToLower (s : String) : String := ⟨s.data.map Char.toLower⟩

/-- strings.ReplaceAll on character lists: replace every non-overlapping
occurrence of pat, scanning left to right.  The source only calls it with a
single quote character as the pattern, so the pattern is never empty there. -/
def replaceAllChars (pat new : List Char) : List Char → List Char
  | [] => []
  | c :: cs =>
    if pat ≠ [] ∧ charsStartWith pat (c :: cs) = true then
      new ++ replaceAllChars pat new ((c :: cs).drop pat.length)
    else
      c :: replaceAllChars pat new cs
termination_by l => l.length
decreasing_by
  · simp only [List.length_drop, List.length_cons]
    have : 0 < pat.length := List.length_pos.mpr (by tauto)
    omega
  · simp

/-- strings.ReplaceAll. -/
def goReplaceAll (s pat new : String) : String :=
  ⟨replaceAllChars pat.data new.data s.data⟩

/-! ## Modifier set

The Go modifier types (quoteModifier, parenModifier, reverseModifier,
equalsModifier) are string types whose Modify methods switch on the string
value, so they are embedded as functions on the modifier string.  Modify in
the source first renders its argument with fmt.Sprintf; the embeddings take
the already-rendered text, which their callers supply.
-/

/-- quoteModifier.String. -/
def quoteModifierStr (qm : String) : String :=
  if qm = "no_quotes" then ""
  else if qm = "double_quotes" then dquote
  else if qm = "single_quotes" then squote
  else ""

/-- quoteModifier.Modify. -/
def quoteModifierModify (qm : String) (s : String) : String :=
  if qm = "no_quotes" then s
  else if qm = "double_quotes" then
    quoteModifierStr qm ++
      goReplaceAll s (quoteModifierStr qm) (quoteModifierStr qm ++ quoteModifierStr qm) ++
      quoteModifierStr qm
  else if qm = "single_quotes" then
    quoteModifierStr qm ++ goReplaceAll s (quoteModifierStr qm) backslashQuote ++
      quoteModifierStr qm
  else s

/-- parenModifier.Modify. -/
def parenModifierModify (pm : String) (s : String) : String :=
  if pm = "parentheses" then "(" ++ s ++ ")" else s

/-- reverseModifier.Modify: the in-place swap loop of the source is the
standard list reversal, applied before joining with single spaces. -/
def reverseModifierModify (rm : String) (xs : List String) : String :=
  if rm = "reverse" then goJoin " " xs.reverse else goJoin " " xs

/-- equalsModifier.Modify. -/
def equalsModifierModify (em : String) (v : String) : String :=
  if em = "equals" then goTrimLeft (v ++ " = ") " " else goTrimLeft (v ++ " ") " "

/-- sqlBuilder.getModifier: scan the comma-separated, lowercased ddl tag for
the first part containing the modifier-family token; that part, trimmed, is
the modifier string, else the default applies. -/
def getModifier (ddlTag modToken dflt : String) : String :=
  let tagValue := goToLower ddlTag
  if tagValue = "" then dflt
  else
    match (goSplitChar tagValue ',').find? (fun part => goContains part modToken) with
    | some part => goTrimSpace part
    | none => dflt

/-! ## Identifier model

The identifier value types live outside the given sources (identifier.go);
the encoder only uses their capability surface.  Modelled from the spec: an
identifier exposes a bare name (the Identifier capability); a value that
additionally carries the ObjectIdentifier capability renders through its
fully qualified name, held here in the fqn field (none when the value only
has the bare capability). -/
structure IdentVal where
  name : String
  fqn : Option String
deriving DecidableEq

/-- Modelled from the spec: NewAccountObjectIdentifier (identifier.go is not
among the given sources).  An account object identifier exposes both
capability levels; its fully qualified name is its double-quoted name.  The
assignment of its result to the ObjectIdentifier-typed Name field in
grantRow.toGrant shows the type carries the full capability. -/
def NewAccountObjectIdentifier (name : String) : IdentVal :=
  { name := name, fqn := some (if name = "" then "" else dquote ++ name ++ dquote) }

/-- Modelled from the spec: validObjectidentifier holds iff the name length
is between 1 and 255 (validations.go is not among the given sources; spec
section 8 and validations_test.go fix this behaviour). -/
def validObjectidentifier (i : IdentVal) : Bool :=
  1 ≤ i.name.length && i.name.length ≤ 255

/-! ## Clause model -/

inductive SqlClause where
  | staticC (s : String)
  | keywordC (key : String) (qm : String)
  | identifierC (key : String) (value : IdentVal) (em : String)
  | parameterC (key : String) (value : Option String) (qm em rm : String)
  | listC (clauses : List SqlClause) (sep : String) (pm : String)

mutual

/-- The String method of each sqlClause type.  For sqlParameterClause a nil
value in the reverse branch is rendered by Sprintf as the nil text. -/
def sqlClauseString : SqlClause → String
  | .staticC s => s
  | .keywordC key qm => quoteModifierModify qm key
  | .identifierC key value em =>
    let name :=
      match value.fqn with
      | some f => f
      | none => quoteModifierModify "double_quotes" value.name
    if key ≠ "" then equalsModifierModify em key ++ name else name
  | .parameterC key value qm em rm =>
    if rm = "reverse" then
      reverseModifierModify rm [key, quoteModifierModify qm (value.getD "<nil>")]
    else
      match value with
      | none => equalsModifierModify em key
      | some v => equalsModifierModify em key ++ quoteModifierModify qm v
  | .listC cs sep pm =>
    match cs with
    | [] => ""
    | _ :: _ => parenModifierModify pm (goJoin sep (sqlClauseStrings cs))

def sqlClauseStrings : List SqlClause → List String
  | [] => []
  | c :: cs => sqlClauseString c :: sqlClauseStrings cs

end

/-- sqlBuilder.sql: remove nil clauses and empty renderings, join with single
spaces, and trim spaces from the ends. -/
def sqlBuilderSql (clauses : List (Option SqlClause)) : String :=
  goTrim (goJoin " " (((clauses.filterMap id).map sqlClauseString).filter (fun s => s ≠ ""))) " "

/-- sqlBuilder.renderStaticClause (every call site passes non-nil clauses). -/
def renderStaticClause (clauses : List SqlClause) : SqlClause :=
  .staticC (sqlBuilderSql (clauses.map some))

/-! ## The reflected view of an annotated Go value

A field value of an options struct, as the reflection walk sees it after the
pointer dereference step: a nil pointer field carries none; identifier struct
values (those implementing the Identifier capability) are kept atomic, as the
encoder never digs into them.
-/

mutual

inductive GoVal where
  | boolV (b : Bool)
  | strV (s : String)
  | intV (n : Int)
  | identV (i : IdentVal)
  | structV (fields : List GoField)
  | sliceV (elems : List GoVal)

inductive GoField where
  | mk (ddl db : String) (value : Option GoVal)

end

def GoField.ddl : GoField → String
  | .mk d _ _ => d

def GoField.db : GoField → String
  | .mk _ d _ => d

def GoField.value : GoField → Option GoVal
  | .mk _ _ v => v

/-- reflect.Kind.String, for the error message of parseStruct. -/
def goKindName : GoVal → String
  | .boolV _ => "bool"
  | .strV _ => "string"
  | .intV _ => "int"
  | .identV _ => "struct"
  | .structV _ => "struct"
  | .sliceV _ => "slice"

/-- Values the struct walker hands to parseField (not struct, not slice
shaped). -/
def isScalarVal : GoVal → Bool
  | .boolV _ => true
  | .strV _ => true
  | .intV _ => true
  | .identV _ => false
  | .structV _ => false
  | .sliceV _ => false

mutual

/-- fmt.Sprintf of a value.  The scalar forms are exact.  The composite forms
(brace and bracket renderings) are never produced through the modelled entry
points, which dispatch composite values before any Sprintf; pointer rendering
inside them is not modelled. -/
def goValText : GoVal → String
  | .boolV b => if b then "true" else "false"
  | .strV s => s
  | .intV n => toString n
  | .identV i => "\x7b" ++ i.name ++ "\x7d"
  | .structV fields => "\x7b" ++ goJoin " " (goFieldTexts fields) ++ "\x7d"
  | .sliceV xs => "[" ++ goJoin " " (goValTexts xs) ++ "]"

def goValTexts : List GoVal → List String
  | [] => []
  | v :: vs => goValText v :: goValTexts vs

def goFieldTexts : List GoField → List String
  | [] => []
  | .mk _ _ none :: rest => "<nil>" :: goFieldTexts rest
  | .mk _ _ (some v) :: rest => goValText v :: goFieldTexts rest

end

/-- The first comma-separated part of a ddl tag. -/
def ddlKind (ddl : String) : String := (goSplitChar ddl ',').headD ""

/-- A Go-level failure of the builder: an error value returned to the caller,
or a runtime panic (the unchecked type assertion in parseField). -/
inductive GoErr where
  | goError (msg : String)
  | goPanic (msg : String)
deriving DecidableEq

/-! ## Struct-to-clause encoder

The source's parseStruct, parseField, parseFieldStruct and parseFieldSlice
recurse into one another on the same value (parseFieldStruct calls parseStruct
on the very value it was handed).  To keep the recursion structural — so that
every definition evaluates by kernel reduction — the recursion lives in the
two list walkers parseStructFields and parseSliceElems below, with the
non-recursive parts of each source function factored out in front of them;
the source-shaped functions parseStruct, parseField, parseFieldStruct and
parseFieldSlice are then defined from the walkers and agree with the source
text clause for clause.
-/

/-- The pruning loop at the end of parseStruct: drop nil clauses and clauses
rendering to the empty string. -/
def pruneClauses (cs : List (Option SqlClause)) : List SqlClause :=
  (cs.filterMap id).filter (fun c => sqlClauseString c ≠ "")

/-- Pruning lifted over the result of the field walk. -/
def pruneExc : Except GoErr (List (Option SqlClause)) → Except GoErr (List SqlClause)
  | .error e => .error e
  | .ok cs => .ok (pruneClauses cs)

/-- The shared tail of parseFieldStruct and of the struct branch of
parseField: append the clauses recursion produced after the collected ones
and pre-render everything into one static clause. -/
def wrapStatic (pre : List SqlClause) : Except GoErr (List SqlClause) → Except GoErr (Option SqlClause)
  | .error e => .error e
  | .ok cs => .ok (some (renderStaticClause (pre ++ cs)))

/-- The body of parseFieldStruct once the recursive parseStruct call on the
field value is given as res: the keyword kind prepends a keyword clause and
still merges the recursion, the identifier kind (its capability test having
failed on a plain struct) falls through to the generic merge, and the list
kind wraps the recursion in a comma-joined list clause preceded by the name
text when one is set. -/
def parseFieldStructPost (ddl db : String) (res : Except GoErr (List SqlClause)) :
    Except GoErr (Option SqlClause) :=
  if ddl ≠ "" ∧ ddlKind ddl = "keyword" then
    wrapStatic [.keywordC db (getModifier ddl "quotes" "no_quotes")] res
  else if ddl ≠ "" ∧ ddlKind ddl = "identifier" then
    wrapStatic [] res
  else if ddl ≠ "" ∧ ddlKind ddl = "list" then
    match res with
    | .error e => .error e
    | .ok cs =>
      .ok (some (renderStaticClause
        ((if db ≠ "" then [SqlClause.staticC db] else []) ++
          [SqlClause.listC cs "," (getModifier ddl "paren" "no_parentheses")])))
  else wrapStatic [] res

/-- parseFieldStruct on a value with the Identifier capability: the identifier
kind keeps the value atomic, dropping it silently when its name is empty;
every other kind falls through to the generic recursion, which walks the
identifier struct's untagged fields and so produces no clauses. -/
def parseFieldStructIdent (ddl db : String) (i : IdentVal) : Except GoErr (Option SqlClause) :=
  if ddl ≠ "" ∧ ddlKind ddl = "identifier" then
    if i.name = "" then .ok none
    else .ok (some (.identifierC db i (getModifier ddl "equals" "no_equals")))
  else parseFieldStructPost ddl db (.ok [])

/-- The kind switch at the end of parseField, reached by the scalar values
the walker hands it: the keyword kind is gated by a boolean value, falling
back to the value text for non-boolean values; the identifier kind performs
the unchecked Identifier assertion, which panics on every scalar value; the
parameter kind builds a parameter clause with the quoting, equality and
reverse modifiers; any other kind yields nothing. -/
def parseFieldScalarSwitch (ddl db : String) (v : GoVal) : Except GoErr (Option SqlClause) :=
  if ddlKind ddl = "keyword" then
    match v with
    | .boolV true =>
      .ok (some (renderStaticClause [.keywordC db (getModifier ddl "quotes" "no_quotes")]))
    | .boolV false => .ok none
    | _ =>
      .ok (some (renderStaticClause
        [.keywordC (goValText v) (getModifier ddl "quotes" "no_quotes")]))
  else if ddlKind ddl = "identifier" then
    .error (.goPanic "interface conversion: value does not implement Identifier")
  else if ddlKind ddl = "parameter" then
    .ok (some (renderStaticClause
      [.parameterC db (some (goValText v)) (getModifier ddl "quotes" "no_quotes")
        (getModifier ddl "equals" "equals") (getModifier ddl "reverse" "no_reverse")]))
  else .ok none

/-- parseField on the scalar values the walker hands it: a field with no ddl
tag contributes nothing, the static kind renders the name text before the
value is even examined, and the rest is the kind switch. -/
def parseFieldScalar (ddl db : String) (v : GoVal) : Except GoErr (Option SqlClause) :=
  if ddl = "" then .ok none
  else if ddlKind ddl = "static" then .ok (some (.staticC db))
  else parseFieldScalarSwitch ddl db v

/-- The tail of parseFieldSlice once the element clauses are built: an empty
element list yields no clause; otherwise the comma-joined, optionally
parenthesized list is pre-rendered and, depending on the kind tag, wrapped by
a parameter or keyword clause. -/
def parseFieldSlicePost (ddl db : String) (listClauses : List SqlClause) : Option SqlClause :=
  if listClauses.length < 1 then none
  else
    let sClause := renderStaticClause
      [SqlClause.listC listClauses "," (getModifier ddl "paren" "no_parentheses")]
    if ddlKind ddl = "parameter" then
      some (.parameterC db (some (sqlClauseString sClause))
        (getModifier ddl "quotes" "no_quotes") (getModifier ddl "equals" "equals")
        (getModifier ddl "reverse" "no_reverse"))
    else if ddlKind ddl = "keyword" then
      some (renderStaticClause [.keywordC db (getModifier ddl "quotes" "no_quotes"), sClause])
    else some sClause

/-- Error-propagating cons of a field clause onto the remaining walk. -/
def consClause (c : Except GoErr (Option SqlClause))
    (rest : Except GoErr (List (Option SqlClause))) : Except GoErr (List (Option SqlClause)) :=
  match c with
  | .error e => .error e
  | .ok c =>
    match rest with
    | .error e => .error e
    | .ok cs => .ok (c :: cs)

mutual

/-- The field loop of parseStruct, before pruning: skip nil pointers and
hand each remaining field's dereferenced value to the kind dispatch. -/
def parseStructFields : List GoField → Except GoErr (List (Option SqlClause))
  | [] => .ok []
  | .mk _ _ none :: rest => parseStructFields rest
  | .mk ddl db (some v) :: rest =>
    consClause (parseDispatch ddl db v) (parseStructFields rest)

/-- The kind switch in the field loop of parseStruct: slices go to
parseFieldSlice, struct-shaped values to parseFieldStruct and scalars to
parseField, each call spelled through its structural parts. -/
def parseDispatch (ddl db : String) : GoVal → Except GoErr (Option SqlClause)
  | .sliceV xs =>
    match parseSliceElems ddl xs with
    | .error e => .error e
    | .ok lcs => .ok (parseFieldSlicePost ddl db lcs)
  | .structV fs => parseFieldStructPost ddl db (pruneExc (parseStructFields fs))
  | .identV i => parseFieldStructIdent ddl db i
  | v => parseFieldScalar ddl db v

/-- One element of parseFieldSlice: an identifier element becomes an
identifier clause with no key, a struct element is recursed into and
pre-rendered, and a primitive element renders as its Sprintf text. -/
def parseElem (ddl : String) : GoVal → Except GoErr SqlClause
  | .identV i => .ok (.identifierC "" i (getModifier ddl "equals" "no_equals"))
  | .structV fs =>
    match pruneExc (parseStructFields fs) with
    | .error e => .error e
    | .ok scs => .ok (renderStaticClause scs)
  | x => .ok (.staticC (goValText x))

/-- The element loop of parseFieldSlice. -/
def parseSliceElems (ddl : String) : List GoVal → Except GoErr (List SqlClause)
  | [] => .ok []
  | x :: rest =>
    match parseElem ddl x with
    | .error e => .error e
    | .ok c =>
      match parseSliceElems ddl rest with
      | .error e => .error e
      | .ok cs => .ok (c :: cs)

end

/-- sqlBuilder.parseStruct: walk the fields of a struct value and prune the
resulting clauses.  An identifier struct carries no ddl-tagged fields, so
walking one yields no clauses; any non-struct value is rejected. -/
def parseStruct : GoVal → Except GoErr (List SqlClause)
  | .structV fields => pruneExc (parseStructFields fields)
  | .identV _ => .ok []
  | v => .error (.goError ("expected struct, got " ++ goKindName v))

/-- sqlBuilder.parseFieldStruct, as the source writes it: the kind switch
first, the Identifier capability test inside the identifier case, and the
generic recursion into the value as the shared fall-through. -/
def parseFieldStruct (ddl db : String) (v : GoVal) : Except GoErr (Option SqlClause) :=
  if ddl ≠ "" ∧ ddlKind ddl = "keyword" then
    wrapStatic [.keywordC db (getModifier ddl "quotes" "no_quotes")] (parseStruct v)
  else if ddl ≠ "" ∧ ddlKind ddl = "identifier" then
    match v with
    | .identV i =>
      if i.name = "" then .ok none
      else .ok (some (.identifierC db i (getModifier ddl "equals" "no_equals")))
    | w => wrapStatic [] (parseStruct w)
  else if ddl ≠ "" ∧ ddlKind ddl = "list" then
    match parseStruct v with
    | .error e => .error e
    | .ok cs =>
      .ok (some (renderStaticClause
        ((if db ≠ "" then [SqlClause.staticC db] else []) ++
          [SqlClause.listC cs "," (getModifier ddl "paren" "no_parentheses")])))
  else wrapStatic [] (parseStruct v)

/-- sqlBuilder.parseField, as the source writes it: no ddl tag means no
clause, the static kind renders unconditionally, struct-typed values recurse
generically, and scalar values go through the kind switch. -/
def parseField (ddl db : String) (v : GoVal) : Except GoErr (Option SqlClause) :=
  if ddl = "" then .ok none
  else if ddlKind ddl = "static" then .ok (some (.staticC db))
  else
    match v with
    | .structV fs => wrapStatic [] (parseStruct (.structV fs))
    | .identV i => wrapStatic [] (parseStruct (.identV i))
    | w => parseFieldScalarSwitch ddl db w

/-- sqlBuilder.parseFieldSlice, as the source writes it. -/
def parseFieldSlice (ddl db : String) (xs : List GoVal) : Except GoErr (Option SqlClause) :=
  match parseSliceElems ddl xs with
  | .error e => .error e
  | .ok lcs => .ok (parseFieldSlicePost ddl db lcs)

/-- structToSQL: parse the options value into clauses and assemble the
statement. -/
def structToSQL (v : GoVal) : Except GoErr String :=
  match parseStruct v with
  | .error e => .error e
  | .ok cs => .ok (sqlBuilderSql (cs.map some))

/-! ## grants.go -/

/-- Modelled from the spec: the ObjectType constant for shares
(object_types.go is not among the given sources); Snowflake object types are
named by their SQL keyword. -/
def ObjectTypeShare : String := "SHARE"

/-- grantRow: the flat decoded row (the CreatedOn timestamp is kept opaque). -/
structure GrantRow where
  createdOn : String
  privilege : String
  grantedOn : String
  name : String
  grantedTo : String
  granteeName : String
  grantOption : Bool
  grantedBy : String
deriving DecidableEq

/-- Grant: the domain object built from a decoded row. -/
structure Grant where
  createdOn : String
  privilege : String
  grantedOn : String
  name : IdentVal
  grantedTo : String
  granteeName : IdentVal
  grantOption : Bool
  grantedBy : IdentVal
deriving DecidableEq

/-- grantRow.toGrant. -/
def grantRowToGrant (row : GrantRow) : Except String Grant :=
  let grantedTo := row.grantedTo
  let granteeName :=
    if grantedTo = ObjectTypeShare then
      let parts := goSplitChar row.granteeName '.'
      NewAccountObjectIdentifier (goJoin "." (parts.drop 1))
    else NewAccountObjectIdentifier row.granteeName
  Except.ok
    { createdOn := row.createdOn
      privilege := row.privilege
      grantedOn := row.grantedOn
      grantedTo := grantedTo
      name := NewAccountObjectIdentifier (goTrim row.name dquote)
      granteeName := granteeName
      grantOption := row.grantOption
      grantedBy := NewAccountObjectIdentifier row.grantedBy }

/-- ShowGrantsOn; the Object field carries no ddl tag in the source and its
payload type lives outside the given sources, so it is kept abstract as a
reflected value. -/
structure ShowGrantsOn where
  Account : Option Bool
  Object : Option GoVal

structure ShowGrantsTo where
  Role : IdentVal
  User : IdentVal
  Share : IdentVal

structure ShowGrantsOf where
  Role : IdentVal
  Share : IdentVal

structure ShowGrantsOptions where
  On : Option ShowGrantsOn
  To : Option ShowGrantsTo
  Of : Option ShowGrantsOf

/-- The ddl-annotated reflection view of ShowGrantsOn. -/
def ShowGrantsOn.toGoVal (o : ShowGrantsOn) : GoVal :=
  .structV [.mk "keyword" "ACCOUNT" (o.Account.map GoVal.boolV),
            .mk "" "" o.Object]

/-- The ddl-annotated reflection view of ShowGrantsTo. -/
def ShowGrantsTo.toGoVal (o : ShowGrantsTo) : GoVal :=
  .structV [.mk "identifier" "ROLE" (some (.identV o.Role)),
            .mk "identifier" "USER" (some (.identV o.User)),
            .mk "identifier" "SHARE" (some (.identV o.Share))]

/-- The ddl-annotated reflection view of ShowGrantsOf. -/
def ShowGrantsOf.toGoVal (o : ShowGrantsOf) : GoVal :=
  .structV [.mk "identifier" "ROLE" (some (.identV o.Role)),
            .mk "identifier" "SHARE" (some (.identV o.Share))]

/-- The ddl-annotated reflection view of ShowGrantsOptions; the two
unexported static fields hold their zero value. -/
def ShowGrantsOptions.toGoVal (o : ShowGrantsOptions) : GoVal :=
  .structV [.mk "static" "SHOW" (some (.boolV false)),
            .mk "static" "GRANTS" (some (.boolV false)),
            .mk "keyword" "ON" (o.On.map ShowGrantsOn.toGoVal),
            .mk "keyword" "TO" (o.To.map ShowGrantsTo.toGoVal),
            .mk "keyword" "OF" (o.Of.map ShowGrantsOf.toGoVal)]

/-- Modelled from the spec: exactlyOneValueSet (validations.go is not among
the given sources; spec section 4.4 and validations_test.go fix the
behaviour).  The combinator is represented on the per-argument "value set"
booleans; for the pointer-typed arguments of ShowGrantsOptions.validate a
value is set iff the pointer is non-nil. -/
def exactlyOneValueSet (xs : List Bool) : Bool := (xs.filter (fun b => b)).length = 1

/-- Modelled from the spec: everyValueNil — no argument is non-nil,
represented on the same "value set" booleans. -/
def everyValueNil (xs : List Bool) : Bool := xs.all (fun b => !b)

/-- ShowGrantsOptions.validate: the three target selectors are mutually
exclusive pointers. -/
def ShowGrantsOptions.validate (o : ShowGrantsOptions) : Option String :=
  if everyValueNil [o.On.isSome, o.To.isSome, o.Of.isSome] then
    some "at least one of on, to, or of is required"
  else if !exactlyOneValueSet [o.On.isSome, o.To.isSome, o.Of.isSome] then
    some "only one of on, to, or of can be set"
  else none

/-- The two ways the SQL-producing prefix of grants.Show can fail. -/
inductive ShowGrantsErr where
  | validationFailed (msg : String)
  | encodingFailed (e : GoErr)
deriving DecidableEq

/-- grants.Show up to the point the statement is handed to the transport: a
nil options value is replaced by the empty one, validation runs first, and
only when it passes is the statement encoded.  The successful result is the
SQL text given to the query collaborator. -/
def grantsShowSQL (opts : Option ShowGrantsOptions) : Except ShowGrantsErr String :=
  let o := opts.getD { On := none, To := none, Of := none }
  match o.validate with
  | some msg => .error (.validationFailed msg)
  | none =>
    match structToSQL o.toGoVal with
    | .error e => .error (.encodingFailed e)
    | .ok sql => .ok sql

/-- The ddl-annotated reflection view of grantPrivilegeToShareOptions; the
unexported static field grant holds its zero value, and the On selector
payload is passed through as a reflected value. -/
def grantPrivilegeToShareOptionsVal (objectPrivilege : String) (onVal : Option GoVal)
    (toId : IdentVal) : GoVal :=
  .structV [.mk "static" "GRANT" (some (.boolV false)),
            .mk "keyword" "" (some (.strV objectPrivilege)),
            .mk "keyword" "ON" onVal,
            .mk "identifier" "TO SHARE" (some (.identV toId))]

/-! ## Claim-side specification functions -/

/-- The character-wise escaping the spec describes: every occurrence of q is
replaced by new, every other character kept. -/
def escapeEachChar (q : Char) (new : List Char) : List Char → List Char
  | [] => []
  | c :: cs => (if c = q then new else [c]) ++ escapeEachChar q new cs

/-- The texts the spec says survive assembly: the rendered texts of the
non-nil clauses, with empty renderings dropped. -/
def specNonEmptyTexts (cs : List (Option SqlClause)) : List String :=
  ((cs.filterMap id).map sqlClauseString).filter (fun s => s ≠ "")

/-! ## Helper lemmas -/

/-- On a single-character pattern, ReplaceAll is the character-wise
escaping. -/
theorem replaceAllChars_single (q : Char) (new : List Char) :
    ∀ l : List Char, replaceAllChars [q] new l = escapeEachChar q new l := by
  intro l
  induction l with
  | nil => simp [replaceAllChars, escapeEachChar]
  | cons c cs ih =>
    rw [replaceAllChars, escapeEachChar]
    by_cases h : c = q
    · subst h
      rw [if_pos ⟨by simp, by simp [charsStartWith]⟩, if_pos rfl]
      simp [ih]
    · have hne : ¬([q] ≠ [] ∧ charsStartWith [q] (c :: cs) = true) := by
        intro hcon
        have h2 := hcon.2
        simp [charsStartWith, Bool.and_eq_true, decide_eq_true_eq] at h2
        exact h h2.symm
      rw [if_neg hne, if_neg h, ih]
      rfl

/-- The head surviving dropWhile fails the predicate. -/
theorem dropWhile_head?_not (p : Char → Bool) :
    ∀ (l : List Char) (c : Char), (l.dropWhile p).head? = some c → p c = false := by
  intro l
  induction l with
  | nil => intro c h; simp [List.dropWhile] at h
  | cons a t ih =>
    intro c h
    by_cases hp : p a
    · simp only [List.dropWhile, hp] at h
      exact ih c h
    · simp only [List.dropWhile, hp] at h
      simp only [Bool.false_eq_true, List.head?_cons, Option.some.injEq] at h
      subst h
      simpa using hp

/-- dropWhile keeps the last element when its result is non-empty. -/
theorem dropWhile_getLast? (p : Char → Bool) :
    ∀ l : List Char, l.dropWhile p ≠ [] → (l.dropWhile p).getLast? = l.getLast? := by
  intro l
  induction l with
  | nil => intro h; simp [List.dropWhile] at h
  | cons a t ih =>
    intro hne
    by_cases hp : p a
    · simp only [List.dropWhile, hp] at hne ⊢
      rw [ih hne]
      have ht : t ≠ [] := by
        intro h
        subst h
        simp [List.dropWhile] at hne
      cases t with
      | nil => exact absurd rfl ht
      | cons b t2 => rfl
    · simp only [List.dropWhile, hp]

/-- Both ends of a space-trimmed string are not spaces. -/
theorem goTrim_space_ends (s : String) :
    (∀ c, (goTrim s " ").data.head? = some c → c ≠ ' ')
  ∧ (∀ c, (goTrim s " ").data.getLast? = some c → c ≠ ' ') := by
  have hsp : ∀ c : Char, ((" " : String).data.contains c) = false → c ≠ ' ' := by
    intro c hf hc
    subst hc
    simp at hf
  constructor
  · intro c h
    rw [show (goTrim s " ").data
        = ((s.data.dropWhile (fun c => (" " : String).data.contains c)).reverse.dropWhile
            (fun c => (" " : String).data.contains c)).reverse from rfl] at h
    rw [List.head?_reverse] at h
    by_cases hd : (s.data.dropWhile (fun c => (" " : String).data.contains c)).reverse.dropWhile
        (fun c => (" " : String).data.contains c) = []
    · rw [hd] at h
      simp at h
    · rw [dropWhile_getLast? _ _ hd, List.getLast?_reverse] at h
      exact hsp c (dropWhile_head?_not _ _ _ h)
  · intro c h
    rw [show (goTrim s " ").data
        = ((s.data.dropWhile (fun c => (" " : String).data.contains c)).reverse.dropWhile
            (fun c => (" " : String).data.contains c)).reverse from rfl] at h
    rw [List.getLast?_reverse] at h
    exact hsp c (dropWhile_head?_not _ _ _ h)

/-! ## Claims -/

/-- C1: encoding the grant-privilege-to-share options value with the static
GRANT field, keyword privilege SELECT, unset ON selector and the TO SHARE
share identifier S1 yields exactly GRANT SELECT TO SHARE "S1" (identifier
double-quoted) and no error. -/
theorem grant_select_to_share_renders :
    structToSQL (grantPrivilegeToShareOptionsVal "SELECT" none (NewAccountObjectIdentifier "S1"))
      = Except.ok "GRANT SELECT TO SHARE \"S1\"" := rfl

/-- C3: the double-quote modifier wraps the value in double quotes doubling
every inner double quote, the single-quote modifier wraps it in single
quotes replacing every inner single quote by backslash-quote, and the
no-quotes modifier returns the value unchanged. -/
theorem quote_modifiers_escape (v : String) :
    quoteModifierModify "double_quotes" v
        = dquote ++ String.mk (escapeEachChar dquoteChar [dquoteChar, dquoteChar] v.data) ++ dquote
  ∧ quoteModifierModify "single_quotes" v
        = squote ++ String.mk (escapeEachChar squoteChar [backslashChar, squoteChar] v.data) ++ squote
  ∧ quoteModifierModify "no_quotes" v = v := by
  refine ⟨?_, ?_, rfl⟩
  · exact congrArg (fun l => dquote ++ String.mk l ++ dquote)
      (replaceAllChars_single dquoteChar [dquoteChar, dquoteChar] v.data)
  · exact congrArg (fun l => squote ++ String.mk l ++ squote)
      (replaceAllChars_single squoteChar [backslashChar, squoteChar] v.data)

/-- C4 counterexample: a struct-shaped field tagged identifier whose value
does not provide the Identifier capability encodes without any error — the
claimed CastError failure does not happen. -/
theorem identifier_without_capability_no_error :
    structToSQL (GoVal.structV [GoField.mk "identifier" "TO SHARE" (some (GoVal.structV []))])
      = Except.ok "" := rfl

/-- C4 (amended): a scalar-shaped field tagged identifier whose value lacks
the Identifier capability makes encoding panic on the unchecked type
assertion rather than return an error, while a struct-shaped such field is
silently treated as a nested struct and recursed into, producing no error of
its own. -/
theorem identifier_wrong_capability (ddl db : String) (v : GoVal) (fs : List GoField)
    (h1 : ddlKind ddl = "identifier") (h2 : ddl ≠ "") :
    (isScalarVal v = true →
      parseField ddl db v
        = Except.error (.goPanic "interface conversion: value does not implement Identifier"))
  ∧ parseFieldStruct ddl db (.structV fs) = wrapStatic [] (parseStruct (.structV fs)) := by
  constructor
  · intro hs
    cases v <;> simp_all [parseField, parseFieldScalarSwitch, isScalarVal, h1, h2]
  · simp [parseFieldStruct, h1, h2]

/-- C4 witness: the amended behaviour at concrete inputs. -/
theorem identifier_wrong_capability_witness :
    parseField "identifier" "X" (GoVal.strV "v")
      = Except.error (GoErr.goPanic "interface conversion: value does not implement Identifier")
  ∧ parseFieldStruct "identifier" "X" (GoVal.structV [])
      = wrapStatic [] (parseStruct (GoVal.structV [])) :=
  ⟨(identifier_wrong_capability "identifier" "X" (GoVal.strV "v") [] rfl (by decide)).1 rfl,
   (identifier_wrong_capability "identifier" "X" (GoVal.strV "v") [] rfl (by decide)).2⟩

/-- C5 counterexample: an optional (pointer-typed) static field that is nil
is skipped by the struct walker, so its name-tag text GRANT is not emitted —
the whole statement is empty. -/
theorem static_nil_pointer_not_rendered :
    structToSQL (GoVal.structV [GoField.mk "static" "GRANT" none]) = Except.ok ""
  ∧ ("" : String) ≠ "GRANT" := ⟨rfl, by decide⟩

/-- C5 (amended): for every reached field whose kind tag is static, parseField
emits the name-tag text regardless of the run-time value (false booleans and
zero values included), but a nil pointer-typed field — static included — is
skipped by the struct walker before dispatch and emits nothing. -/
theorem static_renders_unconditionally (ddl db : String) (v : GoVal) (rest : List GoField)
    (h1 : ddlKind ddl = "static") (h2 : ddl ≠ "") :
    parseField ddl db v = Except.ok (some (.staticC db))
  ∧ parseStructFields (.mk ddl db none :: rest) = parseStructFields rest := by
  refine ⟨by simp [parseField, h1, h2], rfl⟩

/-- C5 witness: the amended behaviour at concrete inputs. -/
theorem static_renders_unconditionally_witness :
    parseField "static" "GRANT" (GoVal.boolV false) = Except.ok (some (SqlClause.staticC "GRANT"))
  ∧ parseStructFields [GoField.mk "static" "GRANT" none] = parseStructFields [] :=
  static_renders_unconditionally "static" "GRANT" (GoVal.boolV false) [] rfl (by decide)

/-- C6: a parameter clause without the reverse modifier renders as the
equality-modified key followed by the quote-modified value; with the reverse
modifier it renders as the quote-modified value, a single space, and the
key, with no equals sign even when the equality modifier is set. -/
theorem parameter_reverse_wins (k v qm em : String) :
    sqlClauseString (SqlClause.parameterC k (some v) qm em "reverse")
        = quoteModifierModify qm v ++ " " ++ k
  ∧ ∀ rm, rm ≠ "reverse" →
      sqlClauseString (SqlClause.parameterC k (some v) qm em rm)
        = equalsModifierModify em k ++ quoteModifierModify qm v := by
  constructor
  · simp [sqlClauseString, reverseModifierModify, goJoin]
  · intro rm h
    simp [sqlClauseString, h]

/-- C6 witness: both renderings at concrete inputs. -/
theorem parameter_reverse_wins_witness :
    sqlClauseString (SqlClause.parameterC "k" (some "v") "double_quotes" "equals" "reverse")
        = quoteModifierModify "double_quotes" "v" ++ " " ++ "k"
  ∧ sqlClauseString (SqlClause.parameterC "k" (some "v") "double_quotes" "equals" "no_reverse")
        = equalsModifierModify "equals" "k" ++ quoteModifierModify "double_quotes" "v" :=
  ⟨(parameter_reverse_wins "k" "v" "double_quotes" "equals").1,
   (parameter_reverse_wins "k" "v" "double_quotes" "equals").2 "no_reverse" (by decide)⟩

/-- C8: a scalar keyword field renders the name tag (quoted per the quote
modifier) when its value is the boolean true, renders nothing when it is
false, and renders the value's own textual form as the keyword when the
value is not a boolean. -/
theorem keyword_scalar_rendering (ddl db : String) (h1 : ddlKind ddl = "keyword")
    (h2 : ddl ≠ "") :
    parseField ddl db (.boolV true)
      = Except.ok (some (renderStaticClause [.keywordC db (getModifier ddl "quotes" "no_quotes")]))
  ∧ parseField ddl db (.boolV false) = Except.ok none
  ∧ ∀ v, isScalarVal v = true → (∀ b, v ≠ GoVal.boolV b) →
      parseField ddl db v
        = Except.ok (some (renderStaticClause
            [.keywordC (goValText v) (getModifier ddl "quotes" "no_quotes")])) := by
  refine ⟨by simp [parseField, parseFieldScalarSwitch, h1, h2],
    by simp [parseField, parseFieldScalarSwitch, h1, h2], ?_⟩
  intro v hs hnb
  cases v with
  | boolV b => exact absurd rfl (hnb b)
  | strV s => simp [parseField, parseFieldScalarSwitch, h1, h2]
  | intV n => simp [parseField, parseFieldScalarSwitch, h1, h2]
  | identV i => simp [isScalarVal] at hs
  | structV fs => simp [isScalarVal] at hs
  | sliceV xs => simp [isScalarVal] at hs

/-- C8 witness: the three keyword renderings at concrete inputs. -/
theorem keyword_scalar_rendering_witness :
    parseField "keyword" "ON" (GoVal.boolV true)
      = Except.ok (some (renderStaticClause
          [SqlClause.keywordC "ON" (getModifier "keyword" "quotes" "no_quotes")]))
  ∧ parseField "keyword" "ON" (GoVal.boolV false) = Except.ok none
  ∧ parseField "keyword" "ON" (GoVal.strV "SELECT")
      = Except.ok (some (renderStaticClause
          [SqlClause.keywordC "SELECT" (getModifier "keyword" "quotes" "no_quotes")])) :=
  ⟨(keyword_scalar_rendering "keyword" "ON" rfl (by decide)).1,
   (keyword_scalar_rendering "keyword" "ON" rfl (by decide)).2.1,
   (keyword_scalar_rendering "keyword" "ON" rfl (by decide)).2.2 (GoVal.strV "SELECT") rfl
     (fun b h => GoVal.noConfusion h)⟩

/-- C10: a struct-shaped identifier field whose value has the Identifier
capability but an empty name produces no clause and no error — it vanishes
from the statement — although such an identifier fails the separate
validation pass. -/
theorem empty_identifier_silently_dropped (ddl db : String) (i : IdentVal)
    (rest : List GoField) (h1 : ddlKind ddl = "identifier") (h2 : ddl ≠ "")
    (h3 : i.name = "") :
    parseFieldStruct ddl db (.identV i) = Except.ok none
  ∧ structToSQL (.structV (GoField.mk ddl db (some (.identV i)) :: rest))
      = structToSQL (.structV rest)
  ∧ validObjectidentifier i = false := by
  refine ⟨by simp [parseFieldStruct, h1, h2, h3], ?_, by simp [validObjectidentifier, h3]⟩
  cases hrest : parseStructFields rest with
  | error e =>
    simp [structToSQL, parseStruct, parseStructFields, parseDispatch, parseFieldStructIdent,
      consClause, pruneExc, h1, h2, h3, hrest]
  | ok cs =>
    simp [structToSQL, parseStruct, parseStructFields, parseDispatch, parseFieldStructIdent,
      consClause, pruneExc, pruneClauses, h1, h2, h3, hrest]

/-- C10 witness: the empty-named share identifier is dropped at concrete
inputs while the validation predicate rejects it. -/
theorem empty_identifier_silently_dropped_witness :
    parseFieldStruct "identifier" "SHARE" (.identV (NewAccountObjectIdentifier ""))
      = Except.ok none
  ∧ structToSQL (.structV (GoField.mk "identifier" "SHARE"
        (some (.identV (NewAccountObjectIdentifier ""))) ::
        [GoField.mk "static" "SHOW" (some (.boolV false))]))
      = structToSQL (.structV [GoField.mk "static" "SHOW" (some (.boolV false))])
  ∧ validObjectidentifier (NewAccountObjectIdentifier "") = false :=
  empty_identifier_silently_dropped "identifier" "SHARE" (NewAccountObjectIdentifier "")
    [GoField.mk "static" "SHOW" (some (.boolV false))] rfl (by decide) rfl

/-- C9: the row-to-domain converter never fails; when the granted-to type is
SHARE the grantee name becomes the dot-join of the dot-separated segments of
the row's grantee name after the first one, and otherwise it is taken
unchanged. -/
theorem toGrant_share_splits_grantee (row : GrantRow) :
    ∃ g, grantRowToGrant row = Except.ok g
      ∧ g.granteeName = NewAccountObjectIdentifier
          (if row.grantedTo = "SHARE" then
            goJoin "." ((goSplitChar row.granteeName '.').drop 1)
          else row.granteeName) := by
  refine ⟨_, rfl, ?_⟩
  by_cases h : row.grantedTo = "SHARE" <;> simp [grantRowToGrant, ObjectTypeShare, h]

/-- C2: every show-grants options value failing the exactly-one-selector
check (none set, or more than one set) is rejected by validation, and Show
returns that validation error without encoding any SQL. -/
theorem show_validates_before_encoding (o : ShowGrantsOptions)
    (h : exactlyOneValueSet [o.On.isSome, o.To.isSome, o.Of.isSome] = false) :
    ∃ msg, grantsShowSQL (some o) = Except.error (.validationFailed msg)
      ∧ o.validate = some msg := by
  have hv : o.validate
      = some (if everyValueNil [o.On.isSome, o.To.isSome, o.Of.isSome] then
          "at least one of on, to, or of is required"
        else "only one of on, to, or of can be set") := by
    unfold ShowGrantsOptions.validate
    by_cases hn : everyValueNil [o.On.isSome, o.To.isSome, o.Of.isSome]
    · simp [hn]
    · simp [hn, h]
  exact ⟨_, by simp [grantsShowSQL, hv], hv⟩

/-- C2 witness: the all-unset options value fails validation before any
encoding. -/
theorem show_validates_before_encoding_witness :
    ∃ msg, grantsShowSQL (some { On := none, To := none, Of := none })
        = Except.error (.validationFailed msg)
      ∧ ShowGrantsOptions.validate { On := none, To := none, Of := none } = some msg :=
  show_validates_before_encoding { On := none, To := none, Of := none } rfl

/-- C7: the assembler output is the space-join of the rendered texts of the
non-empty clauses with the ends trimmed of spaces; nil clauses and clauses
rendering to the empty string contribute nothing, and the result carries no
leading or trailing space. -/
theorem assembler_joins_nonempty_trimmed (cs : List (Option SqlClause)) :
    sqlBuilderSql cs = goTrim (goJoin " " (specNonEmptyTexts cs)) " "
  ∧ (∀ c, (sqlBuilderSql cs).data.head? = some c → c ≠ ' ')
  ∧ (∀ c, (sqlBuilderSql cs).data.getLast? = some c → c ≠ ' ')
  ∧ sqlBuilderSql (none :: cs) = sqlBuilderSql cs
  ∧ (∀ cl, sqlClauseString cl = "" → sqlBuilderSql (some cl :: cs) = sqlBuilderSql cs) := by
  refine ⟨rfl, (goTrim_space_ends _).1, (goTrim_space_ends _).2, by simp [sqlBuilderSql], ?_⟩
  intro cl h
  simp [sqlBuilderSql, h]

/-- C7 witness: assembly of a concrete clause list with a nil entry and an
empty rendering. -/
theorem assembler_joins_nonempty_trimmed_witness :
    sqlBuilderSql [some (SqlClause.staticC "SHOW")]
        = goTrim (goJoin " " (specNonEmptyTexts [some (SqlClause.staticC "SHOW")])) " "
  ∧ sqlBuilderSql [none, some (SqlClause.staticC "SHOW")]
        = sqlBuilderSql [some (SqlClause.staticC "SHOW")]
  ∧ sqlBuilderSql [some (SqlClause.staticC ""), some (SqlClause.staticC "SHOW")]
        = sqlBuilderSql [some (SqlClause.staticC "SHOW")] :=
  ⟨(assembler_joins_nonempty_trimmed [some (SqlClause.staticC "SHOW")]).1,
   (assembler_joins_nonempty_trimmed [some (SqlClause.staticC "SHOW")]).2.2.2.1,
   (assembler_joins_nonempty_trimmed [some (SqlClause.staticC "SHOW")]).2.2.2.2
     (SqlClause.staticC "") rfl⟩

end SnowflakeSdk
